import Mathlib

/-!
Shallow embedding of the booking engine of `src/Dahu.py` (a Streamlit hotel
planning application) together with proofs of the specified properties.

Dates are embedded as `Int` (ordinal days, matching `datetime.date` ordering
and subtraction); monetary amounts as `Rat` (the source stores floats but the
properties only copy, compare and sum them); the rows of the SQLAlchemy tables
as Lean structures inside a `DB` record that carries the table contents, the
`invoice_seq` setting and the audit log.
-/

namespace Dahu

/-- Row of the `rooms` table (class `Room`, Dahu.py lines 77-87). -/
structure Room where
  id : Nat
  number : String
  name : String
  price : Rat
  housekeeping : String
  maintenance : Bool
deriving DecidableEq

/-- Row of the `bookings` table (class `Booking`, Dahu.py lines 102-122).
`checkout` is exclusive; `invoice_number` defaults to the empty string;
`paid_at` is an abstract timestamp. -/
structure Booking where
  id : Nat
  client_id : Nat
  checkin : Int
  checkout : Int
  extras : Rat
  deposit : Rat
  payment_method : String
  invoice_number : String
  paid : Bool
  paid_at : Option Nat
  created_by : String
deriving DecidableEq

/-- Row of the `booking_rooms` table (class `BookingRoom`, lines 125-135). -/
structure BookingRoom where
  booking_id : Nat
  room_id : Nat
  price_per_night : Rat
deriving DecidableEq

/-- Row of the `maintenance_blocks` table (class `MaintenanceBlock`,
lines 138-148); `end` is exclusive. -/
structure MaintenanceBlock where
  room_id : Nat
  start : Int
  «end» : Int
  reason : String
  created_by : String
deriving DecidableEq

/-- Row of the `audit_logs` table (class `AuditLog`, lines 151-157). -/
structure AuditEntry where
  username : String
  action : String
  meta : String
deriving DecidableEq

/-- The persistent state: table contents, the `invoice_seq` setting (the
source stores it as a decimal string in `settings`, read back with `int`),
the autoincrement counter for booking ids, and the audit log. `clients`
holds the ids of the rows of the `clients` table (only existence of a
client matters to the engine). -/
structure DB where
  rooms : List Room
  clients : List Nat
  bookings : List Booking
  booking_rooms : List BookingRoom
  blocks : List MaintenanceBlock
  invoice_seq : Nat
  next_booking_id : Nat
  audit : List AuditEntry
deriving DecidableEq

/-- `db.get(Room, rid)` (primary-key lookup). -/
def findRoom (db : DB) (rid : Nat) : Option Room :=
  db.rooms.find? (fun r => r.id == rid)

/-- `db.get(Booking, bid)` (primary-key lookup). -/
def findBooking (db : DB) (bid : Nat) : Option Booking :=
  db.bookings.find? (fun b => b.id == bid)

/-- `booking_conflicts_for_room` (Dahu.py lines 216-224): a query over
`BookingRoom` joined with `Booking`, filtered by
`BookingRoom.room_id == room_id`, `Booking.checkout > checkin`,
`Booking.checkin < checkout`, and - when an exclude id is given -
`Booking.id != exclude_booking_id`; the result is whether a first row
exists. -/
def booking_conflicts_for_room (db : DB) (room_id : Nat) (checkin checkout : Int)
    (exclude_booking_id : Option Nat) : Bool :=
  db.booking_rooms.any (fun br =>
    br.room_id == room_id &&
    (match findBooking db br.booking_id with
     | some b =>
        decide (b.checkout > checkin) && decide (b.checkin < checkout) &&
        (match exclude_booking_id with
         | none => true
         | some eid => b.id != eid)
     | none => false))

/-- `room_blocked_in_range` (Dahu.py lines 226-232): whether some
`MaintenanceBlock` row has `room_id == room_id`, `end > checkin` and
`start < checkout`. -/
def room_blocked_in_range (db : DB) (room_id : Nat) (checkin checkout : Int) : Bool :=
  db.blocks.any (fun bl =>
    bl.room_id == room_id && decide (bl.«end» > checkin) && decide (bl.start < checkout))

/-- The character of a decimal digit (`'0'` for 0 ... `'9'` for 9). -/
def digitChar (n : Nat) : Char := Char.ofNat (48 + n)

/-- Decimal digit characters of a natural number, most significant first
(the digits printed by the `%d`-style formatting of the source). -/
def natDigits (n : Nat) : List Char :=
  if _ : n < 10 then [digitChar n]
  else natDigits (n / 10) ++ [digitChar (n % 10)]
termination_by n
decreasing_by exact Nat.div_lt_self (by omega) (by omega)

/-- Zero-padding to width five: the `f"{seq:05d}"` format of
`next_invoice_number` (Dahu.py line 237). -/
def pad5 (n : Nat) : List Char :=
  List.replicate (5 - (natDigits n).length) '0' ++ natDigits n

/-- The invoice string `f"F-{month}-{seq:05d}"` of Dahu.py line 237, with
the `dt.date.today().strftime('%Y%m')` month segment passed in as a
parameter. -/
def format_invoice (month : String) (seq : Nat) : String :=
  "F-" ++ month ++ "-" ++ String.mk (pad5 seq)

/-- `next_invoice_number` (Dahu.py lines 234-240): reads the counter,
formats the invoice string from its current value, stores the counter
incremented by one, and returns the string. -/
def next_invoice_number (db : DB) (month : String) : String × DB :=
  let seq := db.invoice_seq
  let inv := format_invoice month seq
  (inv, { db with invoice_seq := seq + 1 })

/-- A sequence of `next_invoice_number` calls, one per month string,
threading the database state; returns the invoice strings in call order and
the final state. -/
def run_invoice_calls (db : DB) (months : List String) : List String × DB :=
  match months with
  | [] => ([], db)
  | m :: ms =>
    let r := next_invoice_number db m
    let rest := run_invoice_calls r.2 ms
    (r.1 :: rest.1, rest.2)

/-- Python `str.strip()`: drop whitespace from both ends. -/
def strip (s : String) : String :=
  String.mk (((s.data.dropWhile Char.isWhitespace).reverse.dropWhile
    Char.isWhitespace).reverse)

/-- Numeric value of a decimal digit character (inverse of `digitChar`). -/
def digitVal (c : Char) : Nat := c.toNat - 48

/-- Value of a most-significant-first decimal digit string. -/
def decodeDigits (l : List Char) : Nat :=
  l.foldl (fun a c => a * 10 + digitVal c) 0

/-- The combined availability test the panels run per room
(`r.maintenance or room_blocked_in_range(...) or booking_conflicts_for_room(...)`,
Dahu.py line 589, and the sequential checks of lines 650-660). -/
def room_unavailable (db : DB) (r : Room) (checkin checkout : Int)
    (exclude_booking_id : Option Nat) : Bool :=
  r.maintenance || room_blocked_in_range db r.id checkin checkout ||
    booking_conflicts_for_room db r.id checkin checkout exclude_booking_id

/-- `nights_count` (Dahu.py lines 210-211): `max(0, (co - ci).days)`. -/
def nights_count (ci co : Int) : Nat := (co - ci).toNat

/-- The `BookingRoom` rows of one booking (the `Booking.rooms`
relationship, Dahu.py line 122). -/
def booking_rooms_of (db : DB) (bid : Nat) : List BookingRoom :=
  db.booking_rooms.filter (fun br => br.booking_id == bid)

/-- A booking total as computed on read
(`sum(price_per_night for br in b.rooms) * nights + extras`,
Dahu.py lines 293-295 and 685-696). -/
def booking_total (db : DB) (b : Booking) : Rat :=
  let nights := nights_count b.checkin b.checkout
  (((booking_rooms_of db b.id).map (fun br => br.price_per_night)).sum)
      * (nights : Rat) + b.extras

/-- The per-room entry of the `problems` list of `create_booking_panel`
(Dahu.py lines 567-577): first matching reason among global maintenance,
maintenance block, existing reservation; `none` when the room passes all
checks. A missing room id crashes the source before any write; here it
yields no entry. -/
def room_problem (db : DB) (rid : Nat) (checkin checkout : Int) : Option String :=
  match findRoom db rid with
  | none => none
  | some r =>
    if r.maintenance then some (r.name ++ ": travaux global")
    else if room_blocked_in_range db rid checkin checkout then
      some (r.name ++ ": période travaux")
    else if booking_conflicts_for_room db rid checkin checkout none then
      some (r.name ++ ": déjà réservée")
    else none

/-- The `problems` list the creation panel shows (Dahu.py lines 566-579):
one entry per failing room with its reason. -/
def availability_problems (db : DB) (room_ids : List Nat) (checkin checkout : Int) :
    List String :=
  room_ids.filterMap (fun rid => room_problem db rid checkin checkout)

/-- The re-check of the creation handler (Dahu.py lines 587-591): some
requested room is in maintenance, blocked, or already reserved (a missing
room id crashes the source, likewise preventing the creation). -/
def create_checks_fail (db : DB) (room_ids : List Nat) (checkin checkout : Int) :
    Bool :=
  room_ids.any (fun rid =>
    match findRoom db rid with
    | none => true
    | some r =>
      r.maintenance || room_blocked_in_range db rid checkin checkout ||
        booking_conflicts_for_room db rid checkin checkout none)

/-- Failure modes of booking creation. `invalid_request` stands for the
disabled submit button (bad dates, no client, no rooms, Dahu.py line 585);
`unavailable` carries the `problems` list the panel reports. -/
inductive CreateError where
  | invalid_request : CreateError
  | unavailable : List String → CreateError
deriving DecidableEq

/-- Booking creation (`create_booking_panel`, Dahu.py lines 585-614):
validation, the per-room availability re-check before any write, then one
`Booking` row plus one `BookingRoom` row per requested room with the
price snapshotted from the room, committed together with an audit entry.
Returns the result and the post-state (unchanged on failure). -/
def create_booking (db : DB) (client_id : Nat) (room_ids : List Nat)
    (checkin checkout : Int) (deposit : Rat) (payment_method : String)
    (actor : String) : Except CreateError Nat × DB :=
  if decide (checkout ≤ checkin) || !(db.clients.contains client_id)
      || room_ids.isEmpty then
    (Except.error CreateError.invalid_request, db)
  else if create_checks_fail db room_ids checkin checkout then
    (Except.error (CreateError.unavailable
        (availability_problems db room_ids checkin checkout)), db)
  else
    let bid := db.next_booking_id
    let b : Booking :=
      { id := bid, client_id := client_id, checkin := checkin,
        checkout := checkout, extras := 0, deposit := deposit,
        payment_method := payment_method, invoice_number := "",
        paid := false, paid_at := none, created_by := actor }
    let new_brs := room_ids.filterMap (fun rid =>
      (findRoom db rid).map (fun r =>
        ({ booking_id := bid, room_id := r.id, price_per_night := r.price }
          : BookingRoom)))
    (Except.ok bid,
      { db with bookings := db.bookings ++ [b],
                booking_rooms := db.booking_rooms ++ new_brs,
                next_booking_id := bid + 1,
                audit := db.audit ++
                  [⟨actor, "BOOKING_CREATE", "booking=" ++ toString bid⟩] })

/-- The sequential per-room checks of the update handler
(Dahu.py lines 650-660): the first failing room aborts with its message;
conflicts exclude the booking being edited. A missing room id crashes the
source before any write; here it yields an error as well. -/
def first_update_problem (db : DB) (bid : Nat) (rids : List Nat)
    (checkin checkout : Int) : Option String :=
  match rids with
  | [] => none
  | rid :: rest =>
    match findRoom db rid with
    | none => some "chambre inconnue"
    | some r =>
      if r.maintenance then some (r.name ++ ": travaux global.")
      else if room_blocked_in_range db rid checkin checkout then
        some (r.name ++ ": période travaux.")
      else if booking_conflicts_for_room db rid checkin checkout (some bid) then
        some (r.name ++ ": déjà réservée sur la période.")
      else first_update_problem db bid rest checkin checkout

/-- Booking update (`booking_panel` save handler, Dahu.py lines 645-680):
date validation, sequential per-room checks excluding the booking itself,
then field updates, deletion of the `BookingRoom` rows whose room is no
longer selected, and insertion of rows for newly selected rooms with a
freshly snapshotted price; committed with an audit entry. -/
def update_booking (db : DB) (bid : Nat) (new_ci new_co : Int)
    (new_room_ids : List Nat) (deposit : Rat) (payment_method : String)
    (actor : String) : Except String DB :=
  match findBooking db bid with
  | none => Except.error "dossier introuvable"
  | some b =>
    if decide (new_co ≤ new_ci) then Except.error "Dates invalides."
    else
      match first_update_problem db bid new_room_ids new_ci new_co with
      | some msg => Except.error msg
      | none =>
        let b' := { b with checkin := new_ci, checkout := new_co,
                           deposit := deposit, payment_method := payment_method }
        let kept := db.booking_rooms.filter (fun br =>
          br.booking_id != bid || new_room_ids.contains br.room_id)
        let existing := (kept.filter (fun br => br.booking_id == bid)).map
          (fun br => br.room_id)
        let added := (new_room_ids.filter (fun rid => !existing.contains rid)).filterMap
          (fun rid => (findRoom db rid).map (fun r =>
            ({ booking_id := bid, room_id := r.id, price_per_night := r.price }
              : BookingRoom)))
        Except.ok
          { db with
              bookings := db.bookings.map (fun x => if x.id == bid then b' else x),
              booking_rooms := kept ++ added,
              audit := db.audit ++
                [⟨actor, "BOOKING_UPDATE", "booking=" ++ toString bid⟩] }

/-- Booking deletion (`booking_panel` delete handler, Dahu.py lines 730-737
and the `cascade` of line 122): the `Booking` row and its `BookingRoom`
rows are removed in the same commit, with an audit entry. -/
def delete_booking (db : DB) (bid : Nat) (actor : String) : DB :=
  { db with bookings := db.bookings.filter (fun b => b.id != bid),
            booking_rooms := db.booking_rooms.filter (fun br => br.booking_id != bid),
            audit := db.audit ++
              [⟨actor, "BOOKING_DELETE", "booking=" ++ toString bid⟩] }

/-- The payment handler (`Encaisser`, Dahu.py lines 703-713): the button
exists only for an unpaid booking (an already-paid one shows a static
label and nothing runs); pressing it sets `paid`, stamps `paid_at`, draws
an invoice number only when none is assigned yet, commits and logs.
Returns the booking's invoice number and the post-state. -/
def mark_paid (db : DB) (bid : Nat) (month : String) (now : Nat)
    (actor : String) : String × DB :=
  match findBooking db bid with
  | none => ("", db)
  | some b =>
    if b.paid then (b.invoice_number, db)
    else
      let r :=
        if strip b.invoice_number == "" then next_invoice_number db month
        else (b.invoice_number, db)
      let b' := { b with paid := true, paid_at := some now,
                         invoice_number := r.1 }
      (r.1,
        { r.2 with
            bookings := r.2.bookings.map (fun x => if x.id == bid then b' else x),
            audit := r.2.audit ++
              [⟨actor, "BOOKING_PAID",
                "booking=" ++ toString bid ++ " invoice=" ++ r.1⟩] })

/-- The invoice-PDF handler (`Facture PDF`, Dahu.py lines 716-719): when
the booking has no invoice number yet, one is drawn from the sequencer and
committed - independently of payment state; the PDF rendering itself is
out of scope. Returns the invoice number used and the post-state. -/
def generate_invoice_pdf (db : DB) (bid : Nat) (month : String) : String × DB :=
  match findBooking db bid with
  | none => ("", db)
  | some b =>
    if strip b.invoice_number == "" then
      let r := next_invoice_number db month
      (r.1,
        { r.2 with
            bookings := r.2.bookings.map (fun x =>
              if x.id == bid then { b with invoice_number := r.1 } else x) })
    else (b.invoice_number, db)

/-- Insertion of one maintenance-block row. -/
def with_block (db : DB) (bl : MaintenanceBlock) : DB :=
  { db with blocks := bl :: db.blocks }

/-- Insertion of one booking row together with one room-assignment row. -/
def with_booking (db : DB) (b : Booking) (br : BookingRoom) : DB :=
  { db with bookings := b :: db.bookings,
            booking_rooms := br :: db.booking_rooms }

/-- The room price edit (`room_controls`, Dahu.py lines 478-484): the
`Room.price` column is updated and committed with an audit entry; nothing
else is touched. -/
def set_room_price (db : DB) (rid : Nat) (price : Rat) (actor : String) : DB :=
  let rooms2 := db.rooms.map (fun r =>
    if r.id == rid then { r with price := price } else r)
  { db with rooms := rooms2,
            audit := db.audit ++ [⟨actor, "ROOM_PRICE", "room=" ++ toString rid⟩] }

/-- Sample room, as created by `db_init` (Dahu.py lines 196-199). -/
def sroom1 : Room :=
  { id := 1, number := "101", name := "Chambre 101", price := 95,
    housekeeping := "clean", maintenance := false }

/-- Second sample room. -/
def sroom2 : Room :=
  { id := 2, number := "102", name := "Chambre 102", price := 80,
    housekeeping := "clean", maintenance := false }

/-- Third sample room. -/
def sroom3 : Room :=
  { id := 3, number := "103", name := "Chambre 103", price := 70,
    housekeeping := "clean", maintenance := false }

/-- Sample unpaid booking of room 1 over `[10, 12)`. -/
def sbooking1 : Booking :=
  { id := 1, client_id := 1, checkin := 10, checkout := 12, extras := 0,
    deposit := 0, payment_method := "", invoice_number := "", paid := false,
    paid_at := none, created_by := "admin" }

/-- Sample database state: three rooms, one client, one unpaid booking
holding room 1. -/
def sdb : DB :=
  { rooms := [sroom1, sroom2, sroom3], clients := [1],
    bookings := [sbooking1],
    booking_rooms := [{ booking_id := 1, room_id := 1, price_per_night := 95 }],
    blocks := [], invoice_seq := 1, next_booking_id := 2, audit := [] }

/-- Sample maintenance block on room 2 whose end touches day 12. -/
def tblock : MaintenanceBlock :=
  { room_id := 2, start := 8, «end» := 12, reason := "Travaux",
    created_by := "admin" }

/-- Sample booking whose checkin touches day 14. -/
def tbooking : Booking :=
  { id := 7, client_id := 1, checkin := 14, checkout := 16, extras := 0,
    deposit := 0, payment_method := "", invoice_number := "", paid := false,
    paid_at := none, created_by := "admin" }

/-- Room-assignment row putting `tbooking` in room 2. -/
def tbr : BookingRoom :=
  { booking_id := 7, room_id := 2, price_per_night := 80 }

/-- The state after creating a booking for rooms 2 and 3 over `[20, 22)`
in the sample state. -/
def cdb : DB := (create_booking sdb 1 [2, 3] 20 22 0 "CB" "admin").2

/-- The state after updating the sample booking to rooms 1 and 2 over
`[11, 13)`. -/
def udb : DB :=
  match update_booking sdb 1 11 13 [1, 2] 0 "CB" "admin" with
  | Except.ok d => d
  | Except.error _ => sdb

end Dahu

namespace Dahu

/-- Characterization of `room_blocked_in_range` as an existential over the
`maintenance_blocks` table. -/
theorem room_blocked_in_range_iff (db : DB) (rid : Nat) (ci co : Int) :
    room_blocked_in_range db rid ci co = true ↔
      ∃ bl ∈ db.blocks, bl.room_id = rid ∧ bl.«end» > ci ∧ bl.start < co := by
  unfold room_blocked_in_range
  simp only [List.any_eq_true, Bool.and_eq_true, beq_iff_eq, decide_eq_true_eq,
    and_assoc]

/-- Characterization of `booking_conflicts_for_room` as an existential over
the join of `booking_rooms` with `bookings`. -/
theorem booking_conflicts_for_room_iff (db : DB) (rid : Nat) (ci co : Int)
    (ex : Option Nat) :
    booking_conflicts_for_room db rid ci co ex = true ↔
      ∃ br ∈ db.booking_rooms, br.room_id = rid ∧
        ∃ b, findBooking db br.booking_id = some b ∧
          b.checkout > ci ∧ b.checkin < co ∧
          (∀ eid, ex = some eid → b.id ≠ eid) := by
  unfold booking_conflicts_for_room
  simp only [List.any_eq_true, Bool.and_eq_true, beq_iff_eq]
  constructor
  · rintro ⟨br, hbr, h1, h2⟩
    refine ⟨br, hbr, h1, ?_⟩
    cases hfb : findBooking db br.booking_id with
    | none =>
      rw [hfb] at h2
      exact absurd h2 (by simp)
    | some b =>
      simp only [hfb, Bool.and_eq_true, decide_eq_true_eq] at h2
      refine ⟨b, rfl, h2.1.1, h2.1.2, ?_⟩
      intro eid hex
      subst hex
      simpa only [bne_iff_ne, ne_eq] using h2.2
  · rintro ⟨br, hbr, h1, b, hfb, h2, h3, h4⟩
    refine ⟨br, hbr, h1, ?_⟩
    simp only [hfb, Bool.and_eq_true, decide_eq_true_eq]
    refine ⟨⟨h2, h3⟩, ?_⟩
    cases ex with
    | none => rfl
    | some eid => simpa only [bne_iff_ne, ne_eq] using h4 eid rfl

/-- C1: a room is reported unavailable for the half-open range
`[checkin, checkout)` if and only if (a) its global maintenance flag is set,
or (b) some maintenance block on it satisfies `end > checkin` and
`start < checkout`, or (c) some booking-room row on it joins to a booking
(other than the excluded one, when an exclude id is given) satisfying
`existing.checkout > checkin` and `existing.checkin < checkout`. -/
theorem room_unavailable_iff (db : DB) (r : Room) (ci co : Int) (ex : Option Nat) :
    room_unavailable db r ci co ex = true ↔
      r.maintenance = true
      ∨ (∃ bl ∈ db.blocks, bl.room_id = r.id ∧ bl.«end» > ci ∧ bl.start < co)
      ∨ (∃ br ∈ db.booking_rooms, br.room_id = r.id ∧
          ∃ b, findBooking db br.booking_id = some b ∧
            b.checkout > ci ∧ b.checkin < co ∧
            (∀ eid, ex = some eid → b.id ≠ eid)) := by
  unfold room_unavailable
  rw [Bool.or_eq_true, Bool.or_eq_true, room_blocked_in_range_iff,
    booking_conflicts_for_room_iff, or_assoc]

/-- C10: the overlap test of `booking_conflicts_for_room` is symmetric in
the two intervals: a database holding exactly booking `a` assigned to room
`rid` conflicts with the requested range `[b.checkin, b.checkout)` exactly
when a database holding exactly booking `b` assigned to `rid` conflicts
with `[a.checkin, a.checkout)`. -/
theorem booking_conflict_symmetric (a b : Booking) (rid : Nat) (pa pb : Rat) :
    booking_conflicts_for_room
      { rooms := [], clients := [], bookings := [a],
        booking_rooms := [⟨a.id, rid, pa⟩], blocks := [],
        invoice_seq := 1, next_booking_id := 0, audit := [] }
      rid b.checkin b.checkout none
    = booking_conflicts_for_room
      { rooms := [], clients := [], bookings := [b],
        booking_rooms := [⟨b.id, rid, pb⟩], blocks := [],
        invoice_seq := 1, next_booking_id := 0, audit := [] }
      rid a.checkin a.checkout none := by
  rw [Bool.eq_iff_iff, booking_conflicts_for_room_iff, booking_conflicts_for_room_iff]
  simp only [List.mem_singleton, exists_eq_left]
  have ha : findBooking
      { rooms := [], clients := [], bookings := [a],
        booking_rooms := [⟨a.id, rid, pa⟩], blocks := [],
        invoice_seq := 1, next_booking_id := 0, audit := [] } a.id = some a := by
    simp [findBooking]
  have hb : findBooking
      { rooms := [], clients := [], bookings := [b],
        booking_rooms := [⟨b.id, rid, pb⟩], blocks := [],
        invoice_seq := 1, next_booking_id := 0, audit := [] } b.id = some b := by
    simp [findBooking]
  constructor
  · rintro ⟨h1, x, hx, h2, h3, -⟩
    rw [ha] at hx
    cases hx
    exact ⟨h1, b, hb, by omega, by omega, by simp⟩
  · rintro ⟨h1, x, hx, h2, h3, -⟩
    rw [hb] at hx
    cases hx
    exact ⟨h1, a, ha, by omega, by omega, by simp⟩

/-- `digitVal` inverts `digitChar` on digits. -/
theorem digitVal_digitChar (m : Nat) (h : m < 10) : digitVal (digitChar m) = m := by
  interval_cases m <;> rfl

/-- Digit characters are never the dash separator. -/
theorem digitChar_ne_dash (m : Nat) (h : m < 10) : digitChar m ≠ '-' := by
  interval_cases m <;> decide

/-- Every character produced by `natDigits` is a digit, hence not a dash. -/
theorem natDigits_ne_dash (n : Nat) : ∀ c ∈ natDigits n, c ≠ '-' := by
  induction n using Nat.strong_induction_on with
  | _ n ih =>
    rw [natDigits]
    split
    · next h =>
      intro c hc
      rw [List.mem_singleton] at hc
      subst hc
      exact digitChar_ne_dash n h
    · next h =>
      intro c hc
      rw [List.mem_append] at hc
      rcases hc with hc | hc
      · exact ih (n / 10) (Nat.div_lt_self (by omega) (by omega)) c hc
      · rw [List.mem_singleton] at hc
        subst hc
        exact digitChar_ne_dash (n % 10) (Nat.mod_lt n (by omega))

/-- Decoding the digit string of `n` recovers `n`. -/
theorem decodeDigits_natDigits (n : Nat) : decodeDigits (natDigits n) = n := by
  induction n using Nat.strong_induction_on with
  | _ n ih =>
    rw [natDigits]
    split
    · next h =>
      simp [decodeDigits, digitVal_digitChar n h]
    · next h =>
      have h1 : n / 10 < n := Nat.div_lt_self (by omega) (by omega)
      have h2 := ih (n / 10) h1
      simp only [decodeDigits] at h2 ⊢
      rw [List.foldl_append, h2]
      simp only [List.foldl_cons, List.foldl_nil,
        digitVal_digitChar (n % 10) (Nat.mod_lt n (by omega))]
      omega

/-- Leading zeros do not change the decoded value. -/
theorem decodeDigits_pad5 (n : Nat) : decodeDigits (pad5 n) = n := by
  unfold pad5 decodeDigits
  rw [List.foldl_append]
  have hz : ∀ k, List.foldl (fun a c => a * 10 + digitVal c) 0
      (List.replicate k '0') = 0 := by
    intro k
    induction k with
    | zero => rfl
    | succ k ihk => simpa [List.replicate_succ, digitVal] using ihk
  rw [hz]
  exact decodeDigits_natDigits n

/-- `pad5` is injective. -/
theorem pad5_injective {a b : Nat} (h : pad5 a = pad5 b) : a = b := by
  have := congrArg decodeDigits h
  rwa [decodeDigits_pad5, decodeDigits_pad5] at this

/-- No character of `pad5 n` is a dash. -/
theorem pad5_ne_dash (n : Nat) : ∀ c ∈ pad5 n, c ≠ '-' := by
  intro c hc
  unfold pad5 at hc
  rw [List.mem_append] at hc
  rcases hc with hc | hc
  · rw [List.mem_replicate] at hc
    rw [hc.2]
    decide
  · exact natDigits_ne_dash n c hc

/-- In a list of the form `C ++ '-' :: D` with `D` dash-free, `D` is the
part after the last dash, so it is determined by the whole list. -/
theorem last_dash_splits : ∀ (C1 C2 D1 D2 : List Char),
    '-' ∉ D1 → '-' ∉ D2 → C1 ++ '-' :: D1 = C2 ++ '-' :: D2 → D1 = D2 := by
  intro C1
  induction C1 with
  | nil =>
    intro C2 D1 D2 h1 h2 h
    cases C2 with
    | nil => simpa using h
    | cons c t =>
      simp only [List.nil_append, List.cons_append, List.cons.injEq] at h
      exfalso
      apply h1
      rw [h.2]
      simp
  | cons a t ih =>
    intro C2 D1 D2 h1 h2 h
    cases C2 with
    | nil =>
      simp only [List.cons_append, List.nil_append, List.cons.injEq] at h
      exfalso
      apply h2
      rw [← h.2]
      simp
    | cons c t2 =>
      simp only [List.cons_append, List.cons.injEq] at h
      exact ih t2 D1 D2 h1 h2 h.2

/-- Two equal invoice strings have equal sequence numbers, whatever their
month segments are. -/
theorem format_invoice_seq_injective {m1 m2 : String} {s1 s2 : Nat}
    (h : format_invoice m1 s1 = format_invoice m2 s2) : s1 = s2 := by
  have hd := congrArg String.data h
  unfold format_invoice at hd
  simp only [String.data_append] at hd
  have hd' : (("F-".data ++ m1.data) ++ '-' :: pad5 s1)
      = (("F-".data ++ m2.data) ++ '-' :: pad5 s2) := by
    simpa [List.append_assoc] using hd
  have := last_dash_splits _ _ _ _ (by
      intro hmem
      exact pad5_ne_dash s1 '-' hmem rfl) (by
      intro hmem
      exact pad5_ne_dash s2 '-' hmem rfl) hd'
  exact pad5_injective this

/-- Closed form of the list of invoice strings returned by a run of calls:
the `i`-th call formats the initial counter plus `i`. -/
theorem run_invoice_calls_get? (db : DB) (months : List String) (i : Nat) :
    (run_invoice_calls db months).1.get? i
      = (months.get? i).map (fun m => format_invoice m (db.invoice_seq + i)) := by
  induction months generalizing db i with
  | nil => simp [run_invoice_calls]
  | cons m ms ih =>
    cases i with
    | zero => simp [run_invoice_calls, next_invoice_number]
    | succ i =>
      simp only [run_invoice_calls, next_invoice_number, List.get?_cons_succ]
      rw [ih]
      have : db.invoice_seq + 1 + i = db.invoice_seq + (i + 1) := by omega
      simp [this]

/-- Every string returned during a run is an invoice string whose sequence
number is the initial counter plus its call index. -/
theorem run_invoice_calls_mem (db : DB) (months : List String) (s : String)
    (h : s ∈ (run_invoice_calls db months).1) :
    ∃ k m, s = format_invoice m (db.invoice_seq + k) := by
  induction months generalizing db with
  | nil => simp [run_invoice_calls] at h
  | cons m ms ih =>
    simp only [run_invoice_calls, next_invoice_number, List.mem_cons] at h
    rcases h with h | h
    · exact ⟨0, m, by simpa using h⟩
    · obtain ⟨k, m', hk⟩ := ih _ h
      refine ⟨k + 1, m', ?_⟩
      simp only at hk
      rw [hk]
      congr 1
      omega

/-- C5: every `next_invoice_number` call returns
`F-<month>-<counter zero-padded to 5 digits>` built from the current
counter and increments the persisted counter by exactly one; over any run
of calls the `i`-th returned value carries sequence number
`initial counter + i` (strictly increasing), the returned strings are
pairwise distinct whatever the month segments are, and the final state
differs from the initial one only in the counter, which equals the initial
counter plus the number of calls (never reset by month rollover). -/
theorem invoice_sequencer_spec (db : DB) (months : List String) :
    (∀ i, (run_invoice_calls db months).1.get? i
        = (months.get? i).map (fun m => format_invoice m (db.invoice_seq + i)))
    ∧ List.Pairwise (fun s t => s ≠ t) (run_invoice_calls db months).1
    ∧ (run_invoice_calls db months).2
        = { db with invoice_seq := db.invoice_seq + months.length } := by
  refine ⟨fun i => run_invoice_calls_get? db months i, ?_, ?_⟩
  · induction months generalizing db with
    | nil => simp [run_invoice_calls]
    | cons m ms ih =>
      simp only [run_invoice_calls, next_invoice_number]
      constructor
      · intro s hs heq
        obtain ⟨k, m', hk⟩ := run_invoice_calls_mem _ ms s hs
        simp only at hk
        rw [← heq] at hk
        have := format_invoice_seq_injective hk
        omega
      · exact ih _
  · induction months generalizing db with
    | nil => simp [run_invoice_calls]
    | cons m ms ih =>
      simp only [run_invoice_calls, next_invoice_number]
      rw [ih]
      have : db.invoice_seq + 1 + ms.length = db.invoice_seq + (ms.length + 1) := by
        omega
      simp [this, List.length_cons]

/-- `List.any` only depends on the predicate's values on the list. -/
theorem any_congr_mem {α : Type} (l : List α) (p q : α → Bool)
    (h : ∀ x ∈ l, p x = q x) : l.any p = l.any q := by
  induction l with
  | nil => rfl
  | cons a t ih =>
    simp only [List.any_cons]
    rw [h a (by simp), ih (fun x hx => h x (by simp [hx]))]

/-- A room found by id has that id. -/
theorem findRoom_id {db : DB} {rid : Nat} {r : Room}
    (h : findRoom db rid = some r) : r.id = rid := by
  have := List.find?_some h
  simpa using this

/-- A booking found by id has that id. -/
theorem findBooking_id {db : DB} {bid : Nat} {b : Booking}
    (h : findBooking db bid = some b) : b.id = bid := by
  have := List.find?_some h
  simpa using this

/-- A room found by id belongs to the table. -/
theorem findRoom_mem {db : DB} {rid : Nat} {r : Room}
    (h : findRoom db rid = some r) : r ∈ db.rooms :=
  List.mem_of_find?_eq_some h

/-- Replacing the row with a given id in a table makes the id lookup return
the replacement. -/
theorem find?_map_replace (l : List Booking) (bid : Nat) (b b' : Booking)
    (hfind : l.find? (fun x => x.id == bid) = some b) (hid : b'.id = bid) :
    (l.map (fun x => if x.id == bid then b' else x)).find? (fun x => x.id == bid)
      = some b' := by
  induction l with
  | nil => simp at hfind
  | cons a t ih =>
    by_cases ha : a.id = bid
    · have hat : (a.id == bid) = true := by simpa using ha
      simp only [List.map_cons]
      rw [if_pos hat]
      refine List.find?_cons_of_pos _ ?_
      simp [hid]
    · have hbeq : (a.id == bid) = false := by simpa using ha
      simp only [List.map_cons, hbeq, if_neg (by simpa using ha)]
      rw [List.find?_cons_of_neg _ (by simpa using ha)]
      rw [List.find?_cons_of_neg _ (by simpa using ha)] at hfind
      exact ih hfind

/-- `findBooking` after replacing the row with the looked-up id. -/
theorem findBooking_replace {db db2 : DB} {bid : Nat} {b b' : Booking}
    (hfb : findBooking db bid = some b)
    (hbooks : db2.bookings
      = db.bookings.map (fun x => if x.id == bid then b' else x))
    (hid : b'.id = bid) :
    findBooking db2 bid = some b' := by
  unfold findBooking at hfb ⊢
  rw [hbooks]
  exact find?_map_replace _ _ _ _ hfb hid

/-- An invoice string is never empty. -/
theorem format_invoice_ne_empty (m : String) (s : Nat) :
    format_invoice m s ≠ "" := by
  intro h
  have := congrArg String.data h
  simp only [format_invoice, String.data_append] at this
  simp at this

/-- The digit string of `n` ends in a digit character below ten. -/
theorem natDigits_reverse_head (n : Nat) :
    ∃ d t, (natDigits n).reverse = digitChar d :: t ∧ d < 10 := by
  rw [natDigits]
  split
  · next h => exact ⟨n, [], by simp, h⟩
  · next h =>
    refine ⟨n % 10, (natDigits (n / 10)).reverse, ?_, Nat.mod_lt n (by omega)⟩
    simp

/-- Rebuilding a string from its character list is the identity. -/
theorem string_mk_data (s : String) : String.mk s.data = s := by
  cases s
  rfl

/-- Digit characters are not whitespace. -/
theorem digitChar_not_whitespace (d : Nat) (h : d < 10) :
    Char.isWhitespace (digitChar d) = false := by
  interval_cases d <;> decide

/-- Stripping an invoice string changes nothing: it starts with `F` and
ends with a digit. -/
theorem strip_format_invoice (m : String) (s : Nat) :
    strip (format_invoice m s) = format_invoice m s := by
  obtain ⟨d, t, hrev, hd⟩ := natDigits_reverse_head s
  have hdata : (format_invoice m s).data
      = 'F' :: '-' :: (m.data ++ '-' :: pad5 s) := by
    simp only [format_invoice, String.data_append]
    simp
  have hrevpad : ∃ t2, (pad5 s).reverse = digitChar d :: t2 := by
    refine ⟨t ++ (List.replicate (5 - (natDigits s).length) '0').reverse, ?_⟩
    unfold pad5
    rw [List.reverse_append, hrev]
    simp
  obtain ⟨t2, hrevpad⟩ := hrevpad
  unfold strip
  rw [hdata]
  have hF : Char.isWhitespace 'F' = false := by decide
  rw [List.dropWhile_cons_of_neg (by simp [hF])]
  have hrevall : ('F' :: '-' :: (m.data ++ '-' :: pad5 s)).reverse
      = digitChar d :: (t2 ++ '-' :: (m.data.reverse ++ ['-', 'F'])) := by
    simp only [List.reverse_cons, List.reverse_append]
    rw [hrevpad]
    simp
  rw [hrevall]
  rw [List.dropWhile_cons_of_neg (by simp [digitChar_not_whitespace d hd])]
  rw [← hrevall, List.reverse_reverse, ← hdata, string_mk_data]

/-- C6: intervals that merely touch the requested range never make the room
unavailable: adding a maintenance block whose `end` equals the requested
checkin (or whose `start` equals the requested checkout), or a booking with
a room-assignment whose interval merely touches the range, leaves the
availability verdict of every room unchanged. -/
theorem touching_intervals_never_conflict (db : DB) (r : Room) (ci co : Int)
    (ex : Option Nat) (bl : MaintenanceBlock) (b : Booking) (br : BookingRoom)
    (hbl : bl.«end» = ci ∨ bl.start = co)
    (hb : b.checkout = ci ∨ b.checkin = co)
    (hfresh : ∀ br2 ∈ db.booking_rooms, br2.booking_id ≠ b.id)
    (hbr : br.booking_id = b.id) :
    room_unavailable (with_block db bl) r ci co ex
      = room_unavailable db r ci co ex
    ∧ room_unavailable (with_booking db b br) r ci co ex
      = room_unavailable db r ci co ex := by
  constructor
  · unfold room_unavailable
    have hconf : booking_conflicts_for_room (with_block db bl)
        r.id ci co ex = booking_conflicts_for_room db r.id ci co ex := rfl
    rw [hconf]
    have hblk : room_blocked_in_range (with_block db bl)
        r.id ci co = room_blocked_in_range db r.id ci co := by
      rw [Bool.eq_iff_iff, room_blocked_in_range_iff, room_blocked_in_range_iff]
      constructor
      · rintro ⟨bl2, hmem, h1, h2, h3⟩
        have hmem' : bl2 ∈ bl :: db.blocks := hmem
        rcases List.mem_cons.mp hmem' with heq | hmem2
        · subst heq
          exfalso
          rcases hbl with h | h <;> omega
        · exact ⟨bl2, hmem2, h1, h2, h3⟩
      · rintro ⟨bl2, hmem, h1, h2, h3⟩
        exact ⟨bl2, List.mem_cons_of_mem _ hmem, h1, h2, h3⟩
    rw [hblk]
  · unfold room_unavailable
    have hblk : room_blocked_in_range (with_booking db b br) r.id ci co
        = room_blocked_in_range db r.id ci co := rfl
    rw [hblk]
    have hfx : ∀ x : Nat, x ≠ b.id →
        findBooking (with_booking db b br) x = findBooking db x := by
      intro x hx
      show (b :: db.bookings).find? (fun bk => bk.id == x)
        = db.bookings.find? (fun bk => bk.id == x)
      refine List.find?_cons_of_neg _ ?_
      simp only [beq_iff_eq]
      exact fun hc => hx hc.symm
    have hfb2 : findBooking (with_booking db b br) b.id = some b := by
      show (b :: db.bookings).find? (fun bk => bk.id == b.id) = some b
      exact List.find?_cons_of_pos _ (by simp)
    have hconf : booking_conflicts_for_room (with_booking db b br) r.id ci co ex
        = booking_conflicts_for_room db r.id ci co ex := by
      rw [Bool.eq_iff_iff, booking_conflicts_for_room_iff,
        booking_conflicts_for_room_iff]
      constructor
      · rintro ⟨br2, hmem, h1, bk, hbk, h2, h3, h4⟩
        have hmem' : br2 ∈ br :: db.booking_rooms := hmem
        rcases List.mem_cons.mp hmem' with heq | hmem2
        · subst heq
          rw [hbr, hfb2] at hbk
          cases hbk
          exfalso
          rcases hb with h | h <;> omega
        · refine ⟨br2, hmem2, h1, bk, ?_, h2, h3, h4⟩
          rw [← hfx br2.booking_id (hfresh br2 hmem2)]
          exact hbk
      · rintro ⟨br2, hmem, h1, bk, hbk, h2, h3, h4⟩
        refine ⟨br2, List.mem_cons_of_mem _ hmem, h1, bk, ?_, h2, h3, h4⟩
        rw [hfx br2.booking_id (hfresh br2 hmem)]
        exact hbk
    rw [hconf]

/-- C6 witness: the theorem applied to the sample state with a block ending
exactly at the requested checkin and a booking starting exactly at the
requested checkout, on room 2 over `[12, 14)`. -/
theorem touching_intervals_never_conflict_witness :
    (tblock.«end» = 12 ∨ tblock.start = 14)
    ∧ (tbooking.checkout = 12 ∨ tbooking.checkin = 14)
    ∧ (∀ br2 ∈ sdb.booking_rooms, br2.booking_id ≠ tbooking.id)
    ∧ tbr.booking_id = tbooking.id
    ∧ (room_unavailable (with_block sdb tblock) sroom2 12 14 none
        = room_unavailable sdb sroom2 12 14 none
      ∧ room_unavailable (with_booking sdb tbooking tbr) sroom2 12 14 none
        = room_unavailable sdb sroom2 12 14 none) :=
  ⟨Or.inl rfl, Or.inr rfl, by decide, rfl,
   touching_intervals_never_conflict sdb sroom2 12 14 none tblock tbooking tbr
     (Or.inl rfl) (Or.inr rfl) (by decide) rfl⟩

/-- Evaluation of the payment handler on an already-paid booking. -/
theorem mark_paid_already_paid {db : DB} {bid : Nat} {b : Booking}
    (month : String) (now : Nat) (actor : String)
    (hfb : findBooking db bid = some b) (hpaid : b.paid = true) :
    mark_paid db bid month now actor = (b.invoice_number, db) := by
  simp [mark_paid, hfb, hpaid]

/-- Evaluation of the payment handler on an unpaid booking with no invoice
number assigned: it draws a fresh number. -/
theorem mark_paid_unpaid_draws {db : DB} {bid : Nat} {b : Booking}
    (month : String) (now : Nat) (actor : String)
    (hfb : findBooking db bid = some b) (hpaid : b.paid = false)
    (hstrip : strip b.invoice_number = "") :
    mark_paid db bid month now actor
      = (format_invoice month db.invoice_seq,
         { db with
             invoice_seq := db.invoice_seq + 1,
             bookings := db.bookings.map (fun x =>
               if x.id == bid then
                 { b with paid := true, paid_at := some now,
                          invoice_number := format_invoice month db.invoice_seq }
               else x),
             audit := db.audit ++
               [⟨actor, "BOOKING_PAID",
                 "booking=" ++ toString bid ++ " invoice="
                   ++ format_invoice month db.invoice_seq⟩] }) := by
  simp [mark_paid, hfb, hpaid, hstrip, next_invoice_number]

/-- Evaluation of the payment handler on an unpaid booking that already has
an invoice number: the number is kept and the counter untouched. -/
theorem mark_paid_unpaid_keeps {db : DB} {bid : Nat} {b : Booking}
    (month : String) (now : Nat) (actor : String)
    (hfb : findBooking db bid = some b) (hpaid : b.paid = false)
    (hstrip : strip b.invoice_number ≠ "") :
    mark_paid db bid month now actor
      = (b.invoice_number,
         { db with
             bookings := db.bookings.map (fun x =>
               if x.id == bid then
                 { b with paid := true, paid_at := some now,
                          invoice_number := b.invoice_number }
               else x),
             audit := db.audit ++
               [⟨actor, "BOOKING_PAID",
                 "booking=" ++ toString bid ++ " invoice="
                   ++ b.invoice_number⟩] }) := by
  have hbeq : (strip b.invoice_number == "") = false := by
    simpa using hstrip
  simp [mark_paid, hfb, hpaid, hbeq]

/-- Evaluation of the PDF handler when the booking has no invoice number:
it draws a fresh number without touching payment state. -/
theorem generate_invoice_pdf_draws {db : DB} {bid : Nat} {b : Booking}
    (month : String)
    (hfb : findBooking db bid = some b)
    (hstrip : strip b.invoice_number = "") :
    generate_invoice_pdf db bid month
      = (format_invoice month db.invoice_seq,
         { db with
             invoice_seq := db.invoice_seq + 1,
             bookings := db.bookings.map (fun x =>
               if x.id == bid then
                 { b with invoice_number := format_invoice month db.invoice_seq }
               else x) }) := by
  simp [generate_invoice_pdf, hfb, hstrip, next_invoice_number]

/-- Evaluation of the PDF handler when an invoice number is assigned: it is
a complete no-op. -/
theorem generate_invoice_pdf_keeps {db : DB} {bid : Nat} {b : Booking}
    (month : String)
    (hfb : findBooking db bid = some b)
    (hstrip : strip b.invoice_number ≠ "") :
    generate_invoice_pdf db bid month = (b.invoice_number, db) := by
  have hbeq : (strip b.invoice_number == "") = false := by
    simpa using hstrip
  simp [generate_invoice_pdf, hfb, hbeq]

/-- A drawn invoice number still registers as assigned after stripping. -/
theorem strip_format_invoice_ne_empty (m : String) (s : Nat) :
    strip (format_invoice m s) ≠ "" := by
  rw [strip_format_invoice]
  exact format_invoice_ne_empty m s

/-- Characterization of a successful booking update: the date check and the
per-room checks passed, the booking's fields were updated in place, the
room-assignment rows were filtered and extended as the handler does, and
nothing else changed. -/
theorem update_booking_ok {db : DB} {bid : Nat} {b : Booking} {ci co : Int}
    {rids : List Nat} {dep : Rat} {pm actor : String} {db2 : DB}
    (hfb : findBooking db bid = some b)
    (hupd : update_booking db bid ci co rids dep pm actor = Except.ok db2) :
    db2.bookings = db.bookings.map (fun x =>
        if x.id == bid then
          { b with checkin := ci, checkout := co, deposit := dep,
                   payment_method := pm }
        else x)
    ∧ db2.booking_rooms =
        (let kept := db.booking_rooms.filter (fun br =>
            br.booking_id != bid || rids.contains br.room_id)
         let existing := (kept.filter (fun br => br.booking_id == bid)).map
            (fun br => br.room_id)
         kept ++ (rids.filter (fun rid => !existing.contains rid)).filterMap
            (fun rid => (findRoom db rid).map (fun r =>
              ({ booking_id := bid, room_id := r.id, price_per_night := r.price }
                : BookingRoom))))
    ∧ db2.rooms = db.rooms
    ∧ db2.blocks = db.blocks
    ∧ db2.invoice_seq = db.invoice_seq
    ∧ decide (co ≤ ci) = false
    ∧ first_update_problem db bid rids ci co = none := by
  unfold update_booking at hupd
  simp only [hfb] at hupd
  split at hupd
  · simp at hupd
  · next hdec =>
    split at hupd
    · simp at hupd
    · next hprob =>
      simp only [Except.ok.injEq] at hupd
      subst hupd
      exact ⟨rfl, rfl, rfl, rfl, rfl, by simpa using hdec, hprob⟩

/-- C4: the payment handler is idempotent. On an already-paid booking it
returns the existing invoice number and performs no mutation. On an unpaid
booking it sets `paid`, stamps `paid_at`, draws a fresh invoice number from
the sequencer exactly when none was assigned (keeping an assigned number
and the counter otherwise), and a second call afterwards returns the same
invoice number with no further mutation and no second increment. -/
theorem mark_paid_idempotent (db : DB) (bid : Nat) (b : Booking)
    (month month2 : String) (now now2 : Nat) (actor actor2 : String)
    (hfb : findBooking db bid = some b) :
    (b.paid = true → mark_paid db bid month now actor = (b.invoice_number, db))
    ∧ (b.paid = false →
        findBooking (mark_paid db bid month now actor).2 bid
          = some { b with paid := true, paid_at := some now,
                          invoice_number := (mark_paid db bid month now actor).1 }
        ∧ (strip b.invoice_number = "" →
            (mark_paid db bid month now actor).1
              = format_invoice month db.invoice_seq
            ∧ (mark_paid db bid month now actor).2.invoice_seq
              = db.invoice_seq + 1)
        ∧ (strip b.invoice_number ≠ "" →
            (mark_paid db bid month now actor).1 = b.invoice_number
            ∧ (mark_paid db bid month now actor).2.invoice_seq = db.invoice_seq)
        ∧ mark_paid (mark_paid db bid month now actor).2 bid month2 now2 actor2
            = ((mark_paid db bid month now actor).1,
               (mark_paid db bid month now actor).2)) := by
  have hbid : b.id = bid := findBooking_id hfb
  constructor
  · intro hpaid
    exact mark_paid_already_paid month now actor hfb hpaid
  · intro hpaid
    by_cases hstrip : strip b.invoice_number = ""
    · have hres := mark_paid_unpaid_draws month now actor hfb hpaid hstrip
      have h1 : findBooking (mark_paid db bid month now actor).2 bid
          = some { b with paid := true, paid_at := some now,
                          invoice_number := (mark_paid db bid month now actor).1 } := by
        rw [hres]
        exact findBooking_replace hfb rfl (by simpa using hbid)
      refine ⟨h1, ?_, ?_, ?_⟩
      · intro _
        rw [hres]
        exact ⟨rfl, rfl⟩
      · intro hne
        exact absurd hstrip hne
      · exact mark_paid_already_paid month2 now2 actor2 h1 rfl
    · have hres := mark_paid_unpaid_keeps month now actor hfb hpaid hstrip
      have h1 : findBooking (mark_paid db bid month now actor).2 bid
          = some { b with paid := true, paid_at := some now,
                          invoice_number := (mark_paid db bid month now actor).1 } := by
        rw [hres]
        exact findBooking_replace hfb rfl (by simpa using hbid)
      refine ⟨h1, ?_, ?_, ?_⟩
      · intro heq
        exact absurd heq hstrip
      · intro _
        rw [hres]
        exact ⟨rfl, rfl⟩
      · exact mark_paid_already_paid month2 now2 actor2 h1 rfl

/-- C4 witness: the theorem applied to the sample state, whose booking 1 is
unpaid with no invoice number. -/
theorem mark_paid_idempotent_witness :
    findBooking sdb 1 = some sbooking1
    ∧ ((sbooking1.paid = true →
          mark_paid sdb 1 "202510" 5 "admin" = (sbooking1.invoice_number, sdb))
      ∧ (sbooking1.paid = false →
          findBooking (mark_paid sdb 1 "202510" 5 "admin").2 1
            = some { sbooking1 with
                paid := true, paid_at := some 5,
                invoice_number := (mark_paid sdb 1 "202510" 5 "admin").1 }
          ∧ (strip sbooking1.invoice_number = "" →
              (mark_paid sdb 1 "202510" 5 "admin").1
                = format_invoice "202510" sdb.invoice_seq
              ∧ (mark_paid sdb 1 "202510" 5 "admin").2.invoice_seq
                = sdb.invoice_seq + 1)
          ∧ (strip sbooking1.invoice_number ≠ "" →
              (mark_paid sdb 1 "202510" 5 "admin").1 = sbooking1.invoice_number
              ∧ (mark_paid sdb 1 "202510" 5 "admin").2.invoice_seq
                = sdb.invoice_seq)
          ∧ mark_paid (mark_paid sdb 1 "202510" 5 "admin").2 1 "202511" 6 "admin"
              = ((mark_paid sdb 1 "202510" 5 "admin").1,
                 (mark_paid sdb 1 "202510" 5 "admin").2))) :=
  ⟨rfl, mark_paid_idempotent sdb 1 sbooking1 "202510" "202511" 5 6 "admin" "admin" rfl⟩

/-- C3 counterexample: in the sample state booking 1 is unpaid with no
invoice number, yet pressing the invoice-PDF button - an operation that is
not `MarkPaid` and performs no payment - assigns it a non-empty invoice
number and increments the sequence counter. -/
theorem invoice_drawn_without_payment :
    (findBooking sdb 1).map Booking.paid = some false
    ∧ (findBooking sdb 1).map Booking.invoice_number = some ""
    ∧ (generate_invoice_pdf sdb 1 "202510").2.invoice_seq = sdb.invoice_seq + 1
    ∧ (findBooking (generate_invoice_pdf sdb 1 "202510").2 1).map
        Booking.invoice_number = some (format_invoice "202510" 1)
    ∧ format_invoice "202510" 1 ≠ "" := by
  refine ⟨rfl, rfl, ?_, ?_, format_invoice_ne_empty _ _⟩
  · rfl
  · rfl

/-- C3 (amended): the invoice sequence counter is drawn at most once per
booking, at the first operation that needs an invoice number - the first
successful payment or the first invoice-PDF generation, whichever comes
first. A booking's invoice number is unassigned until that operation; once
assigned, neither payment nor PDF generation draws again or changes it, a
drawn number always registers as assigned, and no other operation
(creation, update, deletion, price change) increments the counter or
changes the booking's invoice number. -/
theorem invoice_drawn_at_most_once (db : DB) (bid : Nat) (b : Booking)
    (month : String) (now : Nat) (actor : String) (cid : Nat)
    (rids : List Nat) (ci co : Int) (dep p : Rat) (pm : String) (rid : Nat)
    (db2 : DB)
    (hfb : findBooking db bid = some b) :
    (strip b.invoice_number ≠ "" →
      (mark_paid db bid month now actor).2.invoice_seq = db.invoice_seq
      ∧ (findBooking (mark_paid db bid month now actor).2 bid).map
          Booking.invoice_number = some b.invoice_number
      ∧ generate_invoice_pdf db bid month = (b.invoice_number, db))
    ∧ (strip b.invoice_number = "" →
        (generate_invoice_pdf db bid month).2.invoice_seq = db.invoice_seq + 1
        ∧ (findBooking (generate_invoice_pdf db bid month).2 bid).map
            Booking.invoice_number = some (format_invoice month db.invoice_seq)
        ∧ (b.paid = false →
            (mark_paid db bid month now actor).2.invoice_seq = db.invoice_seq + 1
            ∧ (findBooking (mark_paid db bid month now actor).2 bid).map
                Booking.invoice_number
              = some (format_invoice month db.invoice_seq))
        ∧ (b.paid = true →
            mark_paid db bid month now actor = (b.invoice_number, db)))
    ∧ strip (format_invoice month db.invoice_seq) ≠ ""
    ∧ (create_booking db cid rids ci co dep pm actor).2.invoice_seq
        = db.invoice_seq
    ∧ (update_booking db bid ci co rids dep pm actor = Except.ok db2 →
        db2.invoice_seq = db.invoice_seq
        ∧ (findBooking db2 bid).map Booking.invoice_number
            = some b.invoice_number)
    ∧ (delete_booking db bid actor).invoice_seq = db.invoice_seq
    ∧ (set_room_price db rid p actor).invoice_seq = db.invoice_seq := by
  have hbid : b.id = bid := findBooking_id hfb
  refine ⟨?_, ?_, strip_format_invoice_ne_empty month db.invoice_seq, ?_, ?_, rfl, rfl⟩
  · intro hstrip
    refine ⟨?_, ?_, generate_invoice_pdf_keeps month hfb hstrip⟩
    · by_cases hpaid : b.paid = true
      · rw [mark_paid_already_paid month now actor hfb hpaid]
      · rw [mark_paid_unpaid_keeps month now actor hfb
          (by simpa using hpaid) hstrip]
    · by_cases hpaid : b.paid = true
      · rw [mark_paid_already_paid month now actor hfb hpaid]
        simp [hfb]
      · have hres := mark_paid_unpaid_keeps month now actor hfb
          (by simpa using hpaid) hstrip
        have h1 : findBooking (mark_paid db bid month now actor).2 bid
            = some { b with paid := true, paid_at := some now,
                            invoice_number := (mark_paid db bid month now actor).1 } := by
          rw [hres]
          exact findBooking_replace hfb rfl (by simpa using hbid)
        rw [h1, hres]
        rfl
  · intro hstrip
    have hpdf := generate_invoice_pdf_draws month hfb hstrip
    refine ⟨?_, ?_, ?_, ?_⟩
    · rw [hpdf]
    · have h2 : findBooking (generate_invoice_pdf db bid month).2 bid
          = some { b with invoice_number := format_invoice month db.invoice_seq } := by
        rw [hpdf]
        exact findBooking_replace hfb rfl (by simpa using hbid)
      rw [h2]
      rfl
    · intro hpaid
      have hmp := mark_paid_unpaid_draws month now actor hfb hpaid hstrip
      have h3 : findBooking (mark_paid db bid month now actor).2 bid
          = some { b with paid := true, paid_at := some now,
                          invoice_number := format_invoice month db.invoice_seq } := by
        rw [hmp]
        exact findBooking_replace hfb rfl (by simpa using hbid)
      constructor
      · rw [hmp]
      · rw [h3]
        rfl
    · intro hpaid
      exact mark_paid_already_paid month now actor hfb hpaid
  · unfold create_booking
    split
    · rfl
    · split
      · rfl
      · rfl
  · intro hupd
    obtain ⟨hbooks, -, -, -, hseq, -, -⟩ := update_booking_ok hfb hupd
    refine ⟨hseq, ?_⟩
    have h4 : findBooking db2 bid
        = some { b with checkin := ci, checkout := co, deposit := dep,
                        payment_method := pm } :=
      findBooking_replace hfb hbooks (by simpa using hbid)
    rw [h4]
    rfl

/-- C3 witness for the amended theorem: applied to the sample state. -/
theorem invoice_drawn_at_most_once_witness :
    findBooking sdb 1 = some sbooking1
    ∧ ((strip sbooking1.invoice_number ≠ "" →
        (mark_paid sdb 1 "202510" 5 "admin").2.invoice_seq = sdb.invoice_seq
        ∧ (findBooking (mark_paid sdb 1 "202510" 5 "admin").2 1).map
            Booking.invoice_number = some sbooking1.invoice_number
        ∧ generate_invoice_pdf sdb 1 "202510" = (sbooking1.invoice_number, sdb))
      ∧ (strip sbooking1.invoice_number = "" →
          (generate_invoice_pdf sdb 1 "202510").2.invoice_seq = sdb.invoice_seq + 1
          ∧ (findBooking (generate_invoice_pdf sdb 1 "202510").2 1).map
              Booking.invoice_number
            = some (format_invoice "202510" sdb.invoice_seq)
          ∧ (sbooking1.paid = false →
              (mark_paid sdb 1 "202510" 5 "admin").2.invoice_seq
                = sdb.invoice_seq + 1
              ∧ (findBooking (mark_paid sdb 1 "202510" 5 "admin").2 1).map
                  Booking.invoice_number
                = some (format_invoice "202510" sdb.invoice_seq))
          ∧ (sbooking1.paid = true →
              mark_paid sdb 1 "202510" 5 "admin" = (sbooking1.invoice_number, sdb)))
      ∧ strip (format_invoice "202510" sdb.invoice_seq) ≠ ""
      ∧ (create_booking sdb 1 [2] 10 12 0 "CB" "admin").2.invoice_seq
          = sdb.invoice_seq
      ∧ (update_booking sdb 1 10 12 [2] 0 "CB" "admin" = Except.ok sdb →
          sdb.invoice_seq = sdb.invoice_seq
          ∧ (findBooking sdb 1).map Booking.invoice_number
              = some sbooking1.invoice_number)
      ∧ (delete_booking sdb 1 "admin").invoice_seq = sdb.invoice_seq
      ∧ (set_room_price sdb 1 99 "admin").invoice_seq = sdb.invoice_seq) :=
  ⟨rfl, invoice_drawn_at_most_once sdb 1 sbooking1 "202510" 5 "admin" 1 [2]
    10 12 0 99 "CB" 1 sdb rfl⟩

/-- Characterization of a successful booking creation: the validation and
the per-room checks passed, exactly one booking row was appended, and one
room-assignment row per requested room was appended with the price copied
from the room. -/
theorem create_booking_ok {db : DB} {cid : Nat} {rids : List Nat} {ci co : Int}
    {dep : Rat} {pm actor : String} {bid2 : Nat} {db' : DB}
    (h : create_booking db cid rids ci co dep pm actor = (Except.ok bid2, db')) :
    bid2 = db.next_booking_id
    ∧ db'.bookings = db.bookings ++
        [{ id := db.next_booking_id, client_id := cid, checkin := ci,
           checkout := co, extras := 0, deposit := dep, payment_method := pm,
           invoice_number := "", paid := false, paid_at := none,
           created_by := actor }]
    ∧ db'.booking_rooms = db.booking_rooms ++
        rids.filterMap (fun rid2 => (findRoom db rid2).map (fun r =>
          ({ booking_id := db.next_booking_id, room_id := r.id,
             price_per_night := r.price } : BookingRoom)))
    ∧ db'.rooms = db.rooms
    ∧ db'.invoice_seq = db.invoice_seq
    ∧ create_checks_fail db rids ci co = false := by
  unfold create_booking at h
  split at h
  · simp at h
  · next hc1 =>
    split at h
    · simp at h
    · next hc2 =>
      simp only [Prod.mk.injEq, Except.ok.injEq] at h
      obtain ⟨h1, h2⟩ := h
      subst h2
      exact ⟨h1.symm, rfl, rfl, rfl, rfl, by simpa using hc2⟩

/-- Evaluation of booking creation when validation passes but some room
fails its availability check: the reported error is the panel's per-room
problems list and the state is returned unchanged. -/
theorem create_booking_err {db : DB} {cid : Nat} {rids : List Nat}
    {ci co : Int} {dep : Rat} {pm actor : String}
    (hval : (decide (co ≤ ci) || !(db.clients.contains cid)
      || rids.isEmpty) = false)
    (hfail : create_checks_fail db rids ci co = true) :
    create_booking db cid rids ci co dep pm actor
      = (Except.error (CreateError.unavailable
          (availability_problems db rids ci co)), db) := by
  unfold create_booking
  rw [if_neg (show ¬((decide (co ≤ ci) || !(db.clients.contains cid)
      || rids.isEmpty) = true) by rw [hval]; decide), if_pos hfail]

/-- Evaluation of booking creation when validation and every per-room check
pass: one booking row and the snapshotted room rows are appended. -/
theorem create_booking_success {db : DB} {cid : Nat} {rids : List Nat}
    {ci co : Int} {dep : Rat} {pm actor : String}
    (hval : (decide (co ≤ ci) || !(db.clients.contains cid)
      || rids.isEmpty) = false)
    (hok : create_checks_fail db rids ci co = false) :
    create_booking db cid rids ci co dep pm actor
      = (Except.ok db.next_booking_id,
         { db with
             bookings := db.bookings ++
               [{ id := db.next_booking_id, client_id := cid, checkin := ci,
                  checkout := co, extras := 0, deposit := dep,
                  payment_method := pm, invoice_number := "", paid := false,
                  paid_at := none, created_by := actor }],
             booking_rooms := db.booking_rooms ++
               rids.filterMap (fun rid2 => (findRoom db rid2).map (fun r =>
                 ({ booking_id := db.next_booking_id, room_id := r.id,
                    price_per_night := r.price } : BookingRoom))),
             next_booking_id := db.next_booking_id + 1,
             audit := db.audit ++
               [⟨actor, "BOOKING_CREATE",
                 "booking=" ++ toString db.next_booking_id⟩] }) := by
  unfold create_booking
  rw [if_neg (show ¬((decide (co ≤ ci) || !(db.clients.contains cid)
      || rids.isEmpty) = true) by rw [hval]; decide),
    if_neg (show ¬(create_checks_fail db rids ci co = true) by
      rw [hok]; decide)]

/-- The appended room rows correspond one-to-one, in order, to the
requested room ids, each with the price copied from its room. -/
theorem snapshot_rows_forall2 (db : DB) (bid2 : Nat) :
    ∀ (rids : List Nat), (∀ rid ∈ rids, ∃ r, findRoom db rid = some r) →
    List.Forall₂ (fun rid br => br.booking_id = bid2 ∧ br.room_id = rid
        ∧ ∃ r, findRoom db rid = some r ∧ br.price_per_night = r.price)
      rids
      (rids.filterMap (fun rid => (findRoom db rid).map (fun r =>
        ({ booking_id := bid2, room_id := r.id, price_per_night := r.price }
          : BookingRoom)))) := by
  intro rids
  induction rids with
  | nil =>
    intro _
    exact List.Forall₂.nil
  | cons a t ih =>
    intro hrooms
    obtain ⟨r, hr⟩ := hrooms a (by simp)
    simp only [List.filterMap_cons, hr, Option.map_some']
    exact List.Forall₂.cons ⟨rfl, findRoom_id hr, r, hr, rfl⟩
      (ih (fun x hx => hrooms x (List.mem_cons_of_mem _ hx)))

/-- C2: booking creation is all-or-nothing. For a well-formed request
(valid dates, existing client, non-empty room list whose ids resolve), the
creation check fails exactly when some requested room is unavailable; in
that case the operation reports the per-room problems list, which names
every failing room with its reason (maintenance, blocked, or reserved),
and the state is unchanged - no booking row and no room-assignment row is
written; otherwise exactly one booking row plus one room-assignment row
per requested room, in order and with snapshotted price, are appended. -/
theorem create_booking_all_or_nothing (db : DB) (cid : Nat) (rids : List Nat)
    (ci co : Int) (dep : Rat) (pm actor : String)
    (hne : rids ≠ [])
    (hdates : ci < co)
    (hclient : db.clients.contains cid = true)
    (hrooms : ∀ rid ∈ rids, ∃ r, findRoom db rid = some r) :
    (create_checks_fail db rids ci co = true ↔
      ∃ rid ∈ rids, ∃ r, findRoom db rid = some r
        ∧ room_unavailable db r ci co none = true)
    ∧ (create_checks_fail db rids ci co = true →
        create_booking db cid rids ci co dep pm actor
          = (Except.error (CreateError.unavailable
              (availability_problems db rids ci co)), db)
        ∧ (∀ rid ∈ rids, ∀ r, findRoom db rid = some r →
            room_unavailable db r ci co none = true →
            ∃ s, room_problem db rid ci co = some s
              ∧ s ∈ availability_problems db rids ci co
              ∧ (r.maintenance = true → s = r.name ++ ": travaux global")
              ∧ (r.maintenance = false →
                  room_blocked_in_range db rid ci co = true →
                  s = r.name ++ ": période travaux")
              ∧ (r.maintenance = false →
                  room_blocked_in_range db rid ci co = false →
                  booking_conflicts_for_room db rid ci co none = true →
                  s = r.name ++ ": déjà réservée")))
    ∧ (create_checks_fail db rids ci co = false →
        ∃ db', create_booking db cid rids ci co dep pm actor
            = (Except.ok db.next_booking_id, db')
          ∧ db'.bookings = db.bookings ++
              [{ id := db.next_booking_id, client_id := cid, checkin := ci,
                 checkout := co, extras := 0, deposit := dep,
                 payment_method := pm, invoice_number := "", paid := false,
                 paid_at := none, created_by := actor }]
          ∧ ∃ new, db'.booking_rooms = db.booking_rooms ++ new
              ∧ List.Forall₂ (fun rid br =>
                  br.booking_id = db.next_booking_id ∧ br.room_id = rid
                  ∧ ∃ r, findRoom db rid = some r
                    ∧ br.price_per_night = r.price) rids new) := by
  have hemp : rids.isEmpty = false := by
    cases rids with
    | nil => exact absurd rfl hne
    | cons a t => rfl
  have hlt : ¬(co ≤ ci) := by omega
  have hval : (decide (co ≤ ci) || !(db.clients.contains cid)
      || rids.isEmpty) = false := by
    rw [hclient, hemp]
    simp [hlt]
  refine ⟨?_, ?_, ?_⟩
  · constructor
    · intro hfail
      unfold create_checks_fail at hfail
      obtain ⟨rid, hmem, hpred⟩ := List.any_eq_true.mp hfail
      obtain ⟨r, hfr⟩ := hrooms rid hmem
      simp only [hfr] at hpred
      refine ⟨rid, hmem, r, hfr, ?_⟩
      unfold room_unavailable
      rw [findRoom_id hfr]
      exact hpred
    · rintro ⟨rid, hmem, r, hfr, hunav⟩
      unfold create_checks_fail
      refine List.any_eq_true.mpr ⟨rid, hmem, ?_⟩
      simp only [hfr]
      unfold room_unavailable at hunav
      rw [findRoom_id hfr] at hunav
      exact hunav
  · intro hfail
    refine ⟨create_booking_err hval hfail, ?_⟩
    intro rid hmem r hfr hunav
    have hid : r.id = rid := findRoom_id hfr
    by_cases hm : r.maintenance = true
    · refine ⟨r.name ++ ": travaux global", ?_, ?_, fun _ => rfl, ?_, ?_⟩
      · simp [room_problem, hfr, hm]
      · exact List.mem_filterMap.mpr
          ⟨rid, hmem, by simp [room_problem, hfr, hm]⟩
      · intro hm2 _
        rw [hm] at hm2
        simp at hm2
      · intro hm2 _ _
        rw [hm] at hm2
        simp at hm2
    · have hm' : r.maintenance = false := by simpa using hm
      by_cases hb : room_blocked_in_range db rid ci co = true
      · refine ⟨r.name ++ ": période travaux", ?_, ?_, ?_, fun _ _ => rfl, ?_⟩
        · simp [room_problem, hfr, hm', hb]
        · exact List.mem_filterMap.mpr
            ⟨rid, hmem, by simp [room_problem, hfr, hm', hb]⟩
        · intro hm2
          rw [hm'] at hm2
          simp at hm2
        · intro _ hb2 _
          rw [hb] at hb2
          simp at hb2
      · have hb' : room_blocked_in_range db rid ci co = false := by
          simpa using hb
        have hc : booking_conflicts_for_room db rid ci co none = true := by
          unfold room_unavailable at hunav
          rw [hid, hm', hb'] at hunav
          simpa using hunav
        refine ⟨r.name ++ ": déjà réservée", ?_, ?_, ?_, ?_, fun _ _ _ => rfl⟩
        · simp [room_problem, hfr, hm', hb', hc]
        · exact List.mem_filterMap.mpr
            ⟨rid, hmem, by simp [room_problem, hfr, hm', hb', hc]⟩
        · intro hm2
          rw [hm'] at hm2
          simp at hm2
        · intro _ hb2
          rw [hb'] at hb2
          simp at hb2
  · intro hok
    exact ⟨_, create_booking_success hval hok, rfl, _, rfl,
      snapshot_rows_forall2 db db.next_booking_id rids hrooms⟩

/-- C2 witness: the theorem applied to the sample state with rooms 1 and 2
over `[11, 13)`, where room 1 is already reserved over `[10, 12)`. -/
theorem create_booking_all_or_nothing_witness :
    ([1, 2] : List Nat) ≠ []
    ∧ (11 : Int) < 13
    ∧ sdb.clients.contains 1 = true
    ∧ (∀ rid ∈ ([1, 2] : List Nat), ∃ r, findRoom sdb rid = some r)
    ∧ ((create_checks_fail sdb [1, 2] 11 13 = true ↔
        ∃ rid ∈ ([1, 2] : List Nat), ∃ r, findRoom sdb rid = some r
          ∧ room_unavailable sdb r 11 13 none = true)
      ∧ (create_checks_fail sdb [1, 2] 11 13 = true →
          create_booking sdb 1 [1, 2] 11 13 0 "CB" "admin"
            = (Except.error (CreateError.unavailable
                (availability_problems sdb [1, 2] 11 13)), sdb)
          ∧ (∀ rid ∈ ([1, 2] : List Nat), ∀ r, findRoom sdb rid = some r →
              room_unavailable sdb r 11 13 none = true →
              ∃ s, room_problem sdb rid 11 13 = some s
                ∧ s ∈ availability_problems sdb [1, 2] 11 13
                ∧ (r.maintenance = true → s = r.name ++ ": travaux global")
                ∧ (r.maintenance = false →
                    room_blocked_in_range sdb rid 11 13 = true →
                    s = r.name ++ ": période travaux")
                ∧ (r.maintenance = false →
                    room_blocked_in_range sdb rid 11 13 = false →
                    booking_conflicts_for_room sdb rid 11 13 none = true →
                    s = r.name ++ ": déjà réservée")))
      ∧ (create_checks_fail sdb [1, 2] 11 13 = false →
          ∃ db', create_booking sdb 1 [1, 2] 11 13 0 "CB" "admin"
              = (Except.ok sdb.next_booking_id, db')
            ∧ db'.bookings = sdb.bookings ++
                [{ id := sdb.next_booking_id, client_id := 1, checkin := 11,
                   checkout := 13, extras := 0, deposit := 0,
                   payment_method := "CB", invoice_number := "",
                   paid := false, paid_at := none, created_by := "admin" }]
            ∧ ∃ new, db'.booking_rooms = sdb.booking_rooms ++ new
                ∧ List.Forall₂ (fun rid br =>
                    br.booking_id = sdb.next_booking_id ∧ br.room_id = rid
                    ∧ ∃ r, findRoom sdb rid = some r
                      ∧ br.price_per_night = r.price) [1, 2] new)) :=
  ⟨by decide, by decide, rfl,
   by
     intro rid hmem
     rcases (by simpa using hmem : rid = 1 ∨ rid = 2) with h | h
     · subst h
       exact ⟨sroom1, rfl⟩
     · subst h
       exact ⟨sroom2, rfl⟩,
   create_booking_all_or_nothing sdb 1 [1, 2] 11 13 0 "CB" "admin"
     (by decide) (by decide) rfl
     (by
       intro rid hmem
       rcases (by simpa using hmem : rid = 1 ∨ rid = 2) with h | h
       · subst h
         exact ⟨sroom1, rfl⟩
       · subst h
         exact ⟨sroom2, rfl⟩)⟩

/-- C9: each room-assignment row written by a successful creation carries
the room's price at creation time, and a later room price change leaves
every stored `price_per_night` - hence every booking total - unchanged,
while the room's own price does change. -/
theorem price_snapshot_frame (db : DB) (cid : Nat) (rids : List Nat)
    (ci co : Int) (dep : Rat) (pm actor : String) (bid2 : Nat) (db' : DB)
    (rid : Nat) (p : Rat)
    (hcreate : create_booking db cid rids ci co dep pm actor
      = (Except.ok bid2, db')) :
    (∀ rid2 ∈ rids, ∀ r, findRoom db rid2 = some r →
        ({ booking_id := bid2, room_id := r.id, price_per_night := r.price }
          : BookingRoom) ∈ db'.booking_rooms)
    ∧ (∀ d : DB, (set_room_price d rid p actor).booking_rooms = d.booking_rooms)
    ∧ (∀ d : DB, ∀ b : Booking,
        booking_total (set_room_price d rid p actor) b = booking_total d b)
    ∧ (∀ r2 ∈ (set_room_price db rid p actor).rooms, r2.id = rid →
        r2.price = p) := by
  obtain ⟨hbid2, hbks, hbrs, hrooms2, hseq, hchk⟩ := create_booking_ok hcreate
  subst hbid2
  refine ⟨?_, fun d => rfl, fun d b => rfl, ?_⟩
  · intro rid2 hmem r hfr
    rw [hbrs]
    refine List.mem_append.mpr (Or.inr ?_)
    refine List.mem_filterMap.mpr ⟨rid2, hmem, ?_⟩
    rw [hfr]
    rfl
  · intro r2 hmem hid
    have hmem' : r2 ∈ db.rooms.map (fun r0 =>
        if r0.id == rid then { r0 with price := p } else r0) := hmem
    obtain ⟨r0, hr0, hfr0⟩ := List.mem_map.mp hmem'
    by_cases h0 : r0.id = rid
    · rw [if_pos (by simpa using h0)] at hfr0
      rw [← hfr0]
    · rw [if_neg (by simpa using h0)] at hfr0
      subst hfr0
      exact absurd hid h0

/-- C9 witness: the theorem applied to a concrete creation of rooms 2 and 3
over `[20, 22)` in the sample state, with a later price change of room 2. -/
theorem price_snapshot_frame_witness :
    create_booking sdb 1 [2, 3] 20 22 0 "CB" "admin" = (Except.ok 2, cdb)
    ∧ ((∀ rid2 ∈ [2, 3], ∀ r, findRoom sdb rid2 = some r →
          ({ booking_id := 2, room_id := r.id, price_per_night := r.price }
            : BookingRoom) ∈ cdb.booking_rooms)
      ∧ (∀ d : DB, (set_room_price d 2 120 "admin").booking_rooms
          = d.booking_rooms)
      ∧ (∀ d : DB, ∀ b : Booking,
          booking_total (set_room_price d 2 120 "admin") b = booking_total d b)
      ∧ (∀ r2 ∈ (set_room_price sdb 2 120 "admin").rooms, r2.id = 2 →
          r2.price = 120)) :=
  ⟨rfl, price_snapshot_frame sdb 1 [2, 3] 20 22 0 "CB" "admin" 2 cdb 2 120 rfl⟩

/-- When the sequential update checks pass, every requested room exists, is
not in maintenance, not blocked, and has no conflicting reservation other
than the booking being edited. -/
theorem first_update_problem_none {db : DB} {bid : Nat} :
    ∀ (rids : List Nat) {ci co : Int},
    first_update_problem db bid rids ci co = none →
    ∀ rid ∈ rids, ∃ r, findRoom db rid = some r
      ∧ r.maintenance = false
      ∧ room_blocked_in_range db rid ci co = false
      ∧ booking_conflicts_for_room db rid ci co (some bid) = false := by
  intro rids
  induction rids with
  | nil =>
    intro ci co _ rid hmem
    simp at hmem
  | cons a t ih =>
    intro ci co hnone rid hmem
    cases hfr : findRoom db a with
    | none =>
      simp only [first_update_problem, hfr] at hnone
      simp at hnone
    | some r =>
      simp only [first_update_problem, hfr] at hnone
      by_cases hm : r.maintenance = true
      · rw [if_pos hm] at hnone
        simp at hnone
      · rw [if_neg hm] at hnone
        by_cases hb : room_blocked_in_range db a ci co = true
        · rw [if_pos hb] at hnone
          simp at hnone
        · rw [if_neg hb] at hnone
          by_cases hc : booking_conflicts_for_room db a ci co (some bid) = true
          · rw [if_pos hc] at hnone
            simp at hnone
          · rw [if_neg hc] at hnone
            rcases List.mem_cons.mp hmem with heq | hmem2
            · subst heq
              exact ⟨r, hfr, by simpa using hm, by simpa using hb,
                by simpa using hc⟩
            · exact ih hnone rid hmem2

/-- C7: on a successful update the room-assignment set is replaced: rows of
rooms no longer selected are removed, rows of retained rooms are kept
unchanged (same price snapshot), rows of other bookings are untouched,
newly selected rooms get a row with the price freshly copied from the
room, the booking's fields are updated in place, and the availability
checks exclude the booking's own id (rows of the edited booking alone
never block the update). -/
theorem update_booking_replaces_rooms (db : DB) (bid : Nat) (b : Booking)
    (ci co : Int) (nrids : List Nat) (dep : Rat) (pm actor : String) (db' : DB)
    (hfb : findBooking db bid = some b)
    (hupd : update_booking db bid ci co nrids dep pm actor = Except.ok db') :
    (∀ br ∈ db.booking_rooms, br.booking_id = bid → br.room_id ∉ nrids →
      br ∉ db'.booking_rooms)
    ∧ (∀ br ∈ db.booking_rooms, br.booking_id = bid → br.room_id ∈ nrids →
        br ∈ db'.booking_rooms)
    ∧ (∀ br ∈ db.booking_rooms, br.booking_id ≠ bid → br ∈ db'.booking_rooms)
    ∧ (∀ rid ∈ nrids,
        (∀ br ∈ db.booking_rooms, br.booking_id = bid → br.room_id ≠ rid) →
        ∃ r, findRoom db rid = some r ∧
          ({ booking_id := bid, room_id := r.id, price_per_night := r.price }
            : BookingRoom) ∈ db'.booking_rooms)
    ∧ findBooking db' bid = some { b with
        checkin := ci, checkout := co,
        deposit := dep, payment_method := pm }
    ∧ (∀ rids2 : List Nat,
        (∀ rid ∈ rids2, ∃ r, findRoom db rid = some r
          ∧ r.maintenance = false
          ∧ room_blocked_in_range db rid ci co = false
          ∧ (∀ br ∈ db.booking_rooms, br.room_id = rid →
              ∀ b2, findBooking db br.booking_id = some b2 →
                b2.checkout > ci → b2.checkin < co → b2.id = bid)) →
        first_update_problem db bid rids2 ci co = none) := by
  have hbid : b.id = bid := findBooking_id hfb
  obtain ⟨hbooks, hbrs0, -, -, -, -, hprob⟩ := update_booking_ok hfb hupd
  have hbrs : db'.booking_rooms =
      (db.booking_rooms.filter (fun br =>
          br.booking_id != bid || nrids.contains br.room_id))
      ++ ((nrids.filter (fun rid =>
            !(((db.booking_rooms.filter (fun br =>
                br.booking_id != bid || nrids.contains br.room_id)).filter
              (fun br => br.booking_id == bid)).map
              (fun br => br.room_id)).contains rid)).filterMap
          (fun rid => (findRoom db rid).map (fun r =>
            ({ booking_id := bid, room_id := r.id, price_per_night := r.price }
              : BookingRoom)))) := hbrs0
  refine ⟨?_, ?_, ?_, ?_, ?_, ?_⟩
  · intro br hmem hb hnotin hcontra
    rw [hbrs] at hcontra
    rcases List.mem_append.mp hcontra with hk | ha
    · have hpred := (List.mem_filter.mp hk).2
      have h1 : (br.booking_id != bid) = false := by simp [hb]
      have h2 : nrids.contains br.room_id = false := by simpa using hnotin
      rw [h1, h2] at hpred
      simp at hpred
    · obtain ⟨rid, hrid, hrow⟩ := List.mem_filterMap.mp ha
      have hrid2 := (List.mem_filter.mp hrid).1
      cases hfr : findRoom db rid with
      | none =>
        rw [hfr] at hrow
        simp at hrow
      | some r =>
        rw [hfr] at hrow
        simp only [Option.map_some', Option.some.injEq] at hrow
        apply hnotin
        rw [← hrow]
        have : r.id = rid := findRoom_id hfr
        simpa [this] using hrid2
  · intro br hmem hb hin
    rw [hbrs]
    refine List.mem_append.mpr (Or.inl (List.mem_filter.mpr ⟨hmem, ?_⟩))
    have h2 : nrids.contains br.room_id = true := by simpa using hin
    rw [h2]
    simp
  · intro br hmem hb
    rw [hbrs]
    refine List.mem_append.mpr (Or.inl (List.mem_filter.mpr ⟨hmem, ?_⟩))
    have h1 : (br.booking_id != bid) = true := by simpa using hb
    rw [h1]
    simp
  · intro rid hmem hnoold
    obtain ⟨r, hfr, -, -, -⟩ :=
      first_update_problem_none nrids hprob rid hmem
    refine ⟨r, hfr, ?_⟩
    rw [hbrs]
    refine List.mem_append.mpr (Or.inr ?_)
    refine List.mem_filterMap.mpr ⟨rid, ?_, ?_⟩
    · refine List.mem_filter.mpr ⟨hmem, ?_⟩
      have hnotin : rid ∉ ((db.booking_rooms.filter (fun br =>
          br.booking_id != bid || nrids.contains br.room_id)).filter
          (fun br => br.booking_id == bid)).map (fun br => br.room_id) := by
        intro hcontra
        obtain ⟨br, hbr, hroom⟩ := List.mem_map.mp hcontra
        have hbmem := (List.mem_filter.mp (List.mem_filter.mp hbr).1).1
        have hbbid : br.booking_id = bid := by
          simpa using (List.mem_filter.mp hbr).2
        exact hnoold br hbmem hbbid hroom
      have : (((db.booking_rooms.filter (fun br =>
          br.booking_id != bid || nrids.contains br.room_id)).filter
          (fun br => br.booking_id == bid)).map
          (fun br => br.room_id)).contains rid = false := by
        simpa using hnotin
      rw [this]
      rfl
    · rw [hfr]
      rfl
  · exact findBooking_replace hfb hbooks (by simpa using hbid)
  · intro rids2 hall
    induction rids2 with
    | nil => rfl
    | cons a t ih =>
      obtain ⟨r, hfr, hm, hb, hconf⟩ := hall a (by simp)
      have hc : booking_conflicts_for_room db a ci co (some bid) = false := by
        rw [Bool.eq_false_iff]
        intro hc
        obtain ⟨br, hbr, hroom, b2, hfb2, h2, h3, h4⟩ :=
          (booking_conflicts_for_room_iff _ _ _ _ _).mp hc
        exact (h4 bid rfl) (hconf br hbr hroom b2 hfb2 h2 h3)
      simp only [first_update_problem, hfr]
      rw [if_neg (by simp [hm]), if_neg (by simp [hb]), if_neg (by simp [hc])]
      exact ih (fun x hx => hall x (List.mem_cons_of_mem _ hx))

/-- C7 witness: the theorem applied to the sample state, updating booking 1
(room 1, `[10, 12)`) to rooms 1 and 2 over `[11, 13)` - the overlap with
its own previous reservation is excluded by the checks. -/
theorem update_booking_replaces_rooms_witness :
    findBooking sdb 1 = some sbooking1
    ∧ update_booking sdb 1 11 13 [1, 2] 0 "CB" "admin" = Except.ok udb
    ∧ ((∀ br ∈ sdb.booking_rooms, br.booking_id = 1 →
          br.room_id ∉ ([1, 2] : List Nat) → br ∉ udb.booking_rooms)
      ∧ (∀ br ∈ sdb.booking_rooms, br.booking_id = 1 →
          br.room_id ∈ ([1, 2] : List Nat) → br ∈ udb.booking_rooms)
      ∧ (∀ br ∈ sdb.booking_rooms, br.booking_id ≠ 1 →
          br ∈ udb.booking_rooms)
      ∧ (∀ rid ∈ ([1, 2] : List Nat),
          (∀ br ∈ sdb.booking_rooms, br.booking_id = 1 → br.room_id ≠ rid) →
          ∃ r, findRoom sdb rid = some r ∧
            ({ booking_id := 1, room_id := r.id, price_per_night := r.price }
              : BookingRoom) ∈ udb.booking_rooms)
      ∧ findBooking udb 1 = some { sbooking1 with
          checkin := 11, checkout := 13,
          deposit := 0, payment_method := "CB" }
      ∧ (∀ rids2 : List Nat,
          (∀ rid ∈ rids2, ∃ r, findRoom sdb rid = some r
            ∧ r.maintenance = false
            ∧ room_blocked_in_range sdb rid 11 13 = false
            ∧ (∀ br ∈ sdb.booking_rooms, br.room_id = rid →
                ∀ b2, findBooking sdb br.booking_id = some b2 →
                  b2.checkout > 11 → b2.checkin < 13 → b2.id = 1)) →
          first_update_problem sdb 1 rids2 11 13 = none)) :=
  ⟨rfl, rfl,
   update_booking_replaces_rooms sdb 1 sbooking1 11 13 [1, 2] 0 "CB" "admin"
     udb rfl rfl⟩

/-- C8: deleting a booking removes its row and all of its room-assignment
rows in the same commit, and afterwards each of its rooms is immediately
available for the freed range, provided the room has no other conflict
there (no maintenance flag, no block, and every overlapping assignment on
the room belonged to the deleted booking). -/
theorem delete_booking_frees_rooms (db : DB) (bid : Nat) (actor : String)
    (r : Room) (ci co : Int)
    (hm : r.maintenance = false)
    (hblk : room_blocked_in_range db r.id ci co = false)
    (honly : ∀ br ∈ db.booking_rooms, br.room_id = r.id →
      ∀ b ∈ db.bookings, b.id = br.booking_id →
        b.checkout > ci → b.checkin < co → b.id = bid) :
    (∀ b ∈ (delete_booking db bid actor).bookings, b.id ≠ bid)
    ∧ (∀ br ∈ (delete_booking db bid actor).booking_rooms, br.booking_id ≠ bid)
    ∧ room_unavailable (delete_booking db bid actor) r ci co none = false := by
  refine ⟨?_, ?_, ?_⟩
  · intro b hb
    have hb' : b ∈ db.bookings.filter (fun x => x.id != bid) := hb
    have := (List.mem_filter.mp hb').2
    simpa using this
  · intro br hbr
    have hbr' : br ∈ db.booking_rooms.filter (fun x => x.booking_id != bid) := hbr
    have := (List.mem_filter.mp hbr').2
    simpa using this
  · have hb2 : room_blocked_in_range (delete_booking db bid actor) r.id ci co
        = room_blocked_in_range db r.id ci co := rfl
    have hconf : booking_conflicts_for_room (delete_booking db bid actor)
        r.id ci co none = false := by
      rw [Bool.eq_false_iff]
      intro hc
      obtain ⟨br, hbr, hroom, bk, hfbk, h2, h3, -⟩ :=
        (booking_conflicts_for_room_iff _ _ _ _ _).mp hc
      have hbr' : br ∈ db.booking_rooms.filter (fun x => x.booking_id != bid) := hbr
      have hbrmem := (List.mem_filter.mp hbr').1
      have hbrne : br.booking_id ≠ bid := by
        simpa using (List.mem_filter.mp hbr').2
      have hbkid : bk.id = br.booking_id := by
        have := List.find?_some hfbk
        simpa using this
      have hbk' : bk ∈ db.bookings.filter (fun x => x.id != bid) :=
        List.mem_of_find?_eq_some hfbk
      have hbkmem := (List.mem_filter.mp hbk').1
      have := honly br hbrmem hroom bk hbkmem hbkid h2 h3
      rw [hbkid] at this
      exact hbrne this
    unfold room_unavailable
    rw [hm, hb2, hblk, hconf]
    rfl

/-- C8 witness: deleting the sample booking frees room 1 for its range. -/
theorem delete_booking_frees_rooms_witness :
    sroom1.maintenance = false
    ∧ room_blocked_in_range sdb sroom1.id 10 12 = false
    ∧ (∀ br ∈ sdb.booking_rooms, br.room_id = sroom1.id →
        ∀ b ∈ sdb.bookings, b.id = br.booking_id →
          b.checkout > 10 → b.checkin < 12 → b.id = 1)
    ∧ ((∀ b ∈ (delete_booking sdb 1 "admin").bookings, b.id ≠ 1)
      ∧ (∀ br ∈ (delete_booking sdb 1 "admin").booking_rooms, br.booking_id ≠ 1)
      ∧ room_unavailable (delete_booking sdb 1 "admin") sroom1 10 12 none
          = false) :=
  ⟨rfl, rfl, by decide,
   delete_booking_frees_rooms sdb 1 "admin" sroom1 10 12 rfl rfl (by decide)⟩

end Dahu
